import Mathlib

/-!
# Verification of the ClusterVersion override-merge tool (`hack/cvo-unmanage.py`)

The tool fetches the `ClusterVersion` JSON document, ensures `spec.overrides`
exists (defaulting to an empty list), scans the override list for the first
entry whose `name` and `namespace` both equal the target, flips its
`unmanaged` field to `true` when it is not already truthy, appends a fresh
override entry when no entry matches, and re-applies the whole document to the
cluster exactly when a modification was made.

This file gives a shallow embedding of that logic: JSON values (`JValue`),
Python-dict operations on association lists (`dget`, `dset`, `dsetdefault`),
Python truthiness (`truthy`), the merge loop (`merge` on lists of objects,
`mergeJ` on lists of JSON values), and the whole-script read-modify-write
(`run`, whose `applied` component records the document handed to the external
apply, if any).
-/

namespace CvoUnmanage

/-- JSON values, as produced by `json.loads`.  Numbers are modelled as
integers; no claim depends on fractional numeric values. -/
inductive JValue where
  | null : JValue
  | bool : Bool → JValue
  | num : Int → JValue
  | str : String → JValue
  | arr : List JValue → JValue
  | obj : List (String × JValue) → JValue

/-- A JSON object: an ordered association list of fields, as Python dicts
preserve insertion order.  Keys are unique in documents produced by
`json.loads`; lookups and updates act on the first occurrence. -/
abbrev JObject := List (String × JValue)

/-- Python `d.get(k)`: the value at key `k`, or `None` (here `none`) when the
key is absent. -/
def dget (k : String) : JObject → Option JValue
  | [] => none
  | (k', v) :: rest => if k' = k then some v else dget k rest

/-- Python `d[k] = v`: replace the value at key `k` in place (the key keeps
its position), or append the binding at the end when the key is absent. -/
def dset (k : String) (v : JValue) : JObject → JObject
  | [] => [(k, v)]
  | (k', v') :: rest => if k' = k then (k', v) :: rest else (k', v') :: dset k v rest

/-- Python `d.setdefault(k, v)`: return the existing value and the unchanged
dict when the key is present, otherwise insert `(k, v)` at the end and return
`v`. -/
def dsetdefault (k : String) (v : JValue) (d : JObject) : JValue × JObject :=
  match dget k d with
  | some v' => (v', d)
  | none => (v, d ++ [(k, v)])

/-- Python truthiness of a JSON value: `None`, `False`, `0`, `""`, `[]` and
`{}` are falsy, everything else is truthy. -/
def truthy : JValue → Bool
  | .null => false
  | .bool b => b
  | .num n => n != 0
  | .str s => s != ""
  | .arr xs => !xs.isEmpty
  | .obj fs => !fs.isEmpty

/-- Truthiness of the result of a `d.get(k)`: an absent key yields `None`,
which is falsy. -/
def truthyOpt : Option JValue → Bool
  | none => false
  | some v => truthy v

/-- Python `x == s` where `s` is a string: true exactly when `x` is that
string; `None` and values of any other type never equal a string. -/
def eqStr : Option JValue → String → Bool
  | some (.str t), s => t == s
  | _, _ => false

/-- The match predicate of the merge loop:
`override.get('name') == name and override.get('namespace') == namespace`. -/
def matchesTarget (ns name : String) (o : JObject) : Bool :=
  eqStr (dget "name" o) name && eqStr (dget "namespace" o) ns

/-- The fresh override entry appended when no entry matches. -/
def newOverride (ns name : String) : JObject :=
  [("group", .str "apps/v1"),
   ("kind", .str "Deployment"),
   ("name", .str name),
   ("namespace", .str ns),
   ("unmanaged", .bool true)]

/-- The override merge loop of the script, over a list of JSON objects:
scan for the first entry matching the target; if found and its `unmanaged`
is already truthy do nothing (`changed = false`), if found and falsy set
`unmanaged` to `true` in place (`changed = true`); if the scan completes
without a match, append `newOverride` at the end (`changed = true`). -/
def merge (ns name : String) : List JObject → List JObject × Bool
  | [] => ([newOverride ns name], true)
  | o :: rest =>
    if matchesTarget ns name o then
      if truthyOpt (dget "unmanaged" o) then (o :: rest, false)
      else (dset "unmanaged" (.bool true) o :: rest, true)
    else
      (o :: (merge ns name rest).1, (merge ns name rest).2)

/-- The same loop over raw JSON list elements, as the script iterates the
`overrides` array: an element that is not an object makes Python raise
(`.get` on a non-dict) when the scan reaches it, modelled by `none`. -/
def mergeJ (ns name : String) : List JValue → Option (List JValue × Bool)
  | [] => some ([.obj (newOverride ns name)], true)
  | .obj o :: rest =>
    if matchesTarget ns name o then
      if truthyOpt (dget "unmanaged" o) then some (.obj o :: rest, false)
      else some (.obj (dset "unmanaged" (.bool true) o) :: rest, true)
    else
      match mergeJ ns name rest with
      | some (rest', c) => some (.obj o :: rest', c)
      | none => none
  | _ :: _ => none

/-- Outcome of one execution of the script: the final in-memory document,
the `modified` flag, and the document passed to `oc apply` (`none` when no
apply was performed). -/
structure RunResult where
  document : JValue
  changed : Bool
  applied : Option JValue

/-- The whole script after the fetch: `clusterversion.setdefault('spec', {})`,
`.setdefault('overrides', [])`, the merge loop, and the conditional
`oc apply` of the full document.  Mutation of the aliased `spec` and
`overrides` objects is rendered by writing the updated values back into
their positions with `dset`.  `none` models a Python exception (the document
or its `spec` is not an object, `overrides` is not a list, or a scanned
element is not an object). -/
def run (ns name : String) (cv : JValue) : Option RunResult :=
  match cv with
  | .obj cvFields =>
    match dsetdefault "spec" (.obj []) cvFields with
    | (.obj specFields, cvFields') =>
      match dsetdefault "overrides" (.arr []) specFields with
      | (.arr ovs, specFields') =>
        match mergeJ ns name ovs with
        | some (ovs', modified) =>
          some { document := .obj (dset "spec"
                   (.obj (dset "overrides" (.arr ovs') specFields')) cvFields'),
                 changed := modified,
                 applied := if modified then
                     some (.obj (dset "spec"
                       (.obj (dset "overrides" (.arr ovs') specFields')) cvFields'))
                   else none }
        | none => none
      | _ => none
    | _ => none
  | _ => none

/-! ## Basic dictionary lemmas -/

theorem dget_dset_self (k : String) (v : JValue) (d : JObject) :
    dget k (dset k v d) = some v := by
  induction d with
  | nil => simp [dget, dset]
  | cons p rest ih =>
    by_cases h : p.1 = k
    · simp [dget, dset, h]
    · simp [dget, dset, h, ih]

theorem dget_dset_ne (k k' : String) (v : JValue) (d : JObject) (h : k' ≠ k) :
    dget k' (dset k v d) = dget k' d := by
  induction d with
  | nil => simp [dget, dset, Ne.symm h]
  | cons p rest ih =>
    by_cases hp : p.1 = k
    · subst hp
      simp [dget, dset, Ne.symm h]
    · simp [dget, dset, hp, ih]

theorem dget_append_of_none (k : String) (d e : JObject) (h : dget k d = none) :
    dget k (d ++ e) = dget k e := by
  induction d with
  | nil => simp
  | cons p rest ih =>
    by_cases hp : p.1 = k
    · simp [dget, hp] at h
    · simp [dget, hp] at h ⊢
      exact ih h

theorem dget_append_of_some (k : String) (d e : JObject) (v : JValue)
    (h : dget k d = some v) : dget k (d ++ e) = some v := by
  induction d with
  | nil => simp [dget] at h
  | cons p rest ih =>
    by_cases hp : p.1 = k
    · simp [dget, hp] at h ⊢
      exact h
    · simp [dget, hp] at h ⊢
      exact ih h

theorem dget_append_singleton_ne (k k' : String) (v : JValue) (d : JObject)
    (h : k' ≠ k) : dget k' (d ++ [(k, v)]) = dget k' d := by
  cases hd : dget k' d with
  | some w => exact dget_append_of_some k' d [(k, v)] w hd
  | none =>
    rw [dget_append_of_none k' d [(k, v)] hd]
    simp [dget, Ne.symm h, hd]

theorem dset_append_of_none (k : String) (v : JValue) (d e : JObject)
    (h : dget k d = none) : dset k v (d ++ e) = d ++ dset k v e := by
  induction d with
  | nil => simp
  | cons p rest ih =>
    by_cases hp : p.1 = k
    · simp [dget, hp] at h
    · simp [dget, hp] at h
      simp [dset, hp, ih h]

theorem keys_dset_of_some (k : String) (v w : JValue) (d : JObject)
    (h : dget k d = some w) : (dset k v d).map Prod.fst = d.map Prod.fst := by
  induction d with
  | nil => simp [dget] at h
  | cons p rest ih =>
    by_cases hp : p.1 = k
    · simp [dset, hp]
    · simp [dget, hp] at h
      simp [dset, hp, ih h]

/-! ## Merge lemmas -/

theorem matchesTarget_newOverride (ns name : String) :
    matchesTarget ns name (newOverride ns name) = true := by
  simp [matchesTarget, newOverride, dget, eqStr]

theorem dget_unmanaged_newOverride (ns name : String) :
    dget "unmanaged" (newOverride ns name) = some (.bool true) := rfl

theorem matchesTarget_dset_unmanaged (ns name : String) (v : JValue) (o : JObject) :
    matchesTarget ns name (dset "unmanaged" v o) = matchesTarget ns name o := by
  unfold matchesTarget
  rw [dget_dset_ne _ _ _ _ (by decide), dget_dset_ne _ _ _ _ (by decide)]

/-- When no entry matches, the loop completes without `break`, so the
`for`/`else` branch appends the fresh override and reports a change. -/
theorem merge_eq_append_of_no_match (ns name : String) (ovs : List JObject)
    (h : ∀ o ∈ ovs, matchesTarget ns name o = false) :
    merge ns name ovs = (ovs ++ [newOverride ns name], true) := by
  induction ovs with
  | nil => rfl
  | cons o rest ih =>
    have ho : matchesTarget ns name o = false := h o (List.mem_cons_self o rest)
    have hr := ih fun x hx => h x (List.mem_cons_of_mem o hx)
    simp [merge, ho, hr]

/-- The first matching entry decides the outcome: the prefix and the suffix
are returned verbatim, and the entry itself is either kept (already truthy)
or updated in place. -/
theorem merge_first_match (ns name : String) (pre : List JObject) (o : JObject)
    (post : List JObject)
    (hpre : ∀ p ∈ pre, matchesTarget ns name p = false)
    (ho : matchesTarget ns name o = true) :
    merge ns name (pre ++ o :: post) =
      (pre ++ (if truthyOpt (dget "unmanaged" o) then o
               else dset "unmanaged" (.bool true) o) :: post,
       !truthyOpt (dget "unmanaged" o)) := by
  induction pre with
  | nil =>
    cases ht : truthyOpt (dget "unmanaged" o) <;> simp [merge, ho, ht]
  | cons p rest ih =>
    have hp : matchesTarget ns name p = false := hpre p (List.mem_cons_self p rest)
    have hr := ih fun x hx => hpre x (List.mem_cons_of_mem p hx)
    simp [merge, hp, hr]

/-! ## Claim theorems: the merge loop -/

/-- C1: for every override sequence containing no entry whose name equals the
target name and whose namespace equals the target namespace, `merge` appends
exactly one new entry `{group: "apps/v1", kind: "Deployment", name, namespace,
unmanaged: true}` at the end of the sequence, reports `changed = true`, and
leaves every pre-existing entry unchanged and in its original relative
order. -/
theorem c1_no_match_appends (ns name : String) (ovs : List JObject)
    (h : ∀ o ∈ ovs, matchesTarget ns name o = false) :
    merge ns name ovs = (ovs ++ [newOverride ns name], true) ∧
    dget "group" (newOverride ns name) = some (.str "apps/v1") ∧
    dget "kind" (newOverride ns name) = some (.str "Deployment") ∧
    dget "name" (newOverride ns name) = some (.str name) ∧
    dget "namespace" (newOverride ns name) = some (.str ns) ∧
    dget "unmanaged" (newOverride ns name) = some (.bool true) :=
  ⟨merge_eq_append_of_no_match ns name ovs h, rfl, rfl, rfl, rfl, rfl⟩

/-- Witness for C1 at a concrete sequence with one non-matching entry. -/
theorem c1_no_match_appends_witness :
    merge "openshift-foo" "bar" [[("name", JValue.str "other"),
                                  ("namespace", JValue.str "openshift-foo")]] =
      ([[("name", JValue.str "other"), ("namespace", JValue.str "openshift-foo")],
        newOverride "openshift-foo" "bar"], true) ∧
    dget "group" (newOverride "openshift-foo" "bar") = some (.str "apps/v1") ∧
    dget "kind" (newOverride "openshift-foo" "bar") = some (.str "Deployment") ∧
    dget "name" (newOverride "openshift-foo" "bar") = some (.str "bar") ∧
    dget "namespace" (newOverride "openshift-foo" "bar") = some (.str "openshift-foo") ∧
    dget "unmanaged" (newOverride "openshift-foo" "bar") = some (.bool true) :=
  c1_no_match_appends "openshift-foo" "bar"
    [[("name", JValue.str "other"), ("namespace", JValue.str "openshift-foo")]]
    (by decide)

/-- C2: when the first entry matching the target has an `unmanaged` field
that is `false` or absent, `merge` sets that entry's `unmanaged` to `true` in
place (same position), changes no other entry, and reports `changed = true`;
the updated entry keeps every field other than `unmanaged` unchanged. -/
theorem c2_flip_in_place (ns name : String) (pre post : List JObject) (o : JObject)
    (hpre : ∀ p ∈ pre, matchesTarget ns name p = false)
    (ho : matchesTarget ns name o = true)
    (hu : dget "unmanaged" o = none ∨ dget "unmanaged" o = some (.bool false)) :
    merge ns name (pre ++ o :: post) =
      (pre ++ dset "unmanaged" (.bool true) o :: post, true) ∧
    dget "unmanaged" (dset "unmanaged" (.bool true) o) = some (.bool true) ∧
    ∀ k, k ≠ "unmanaged" → dget k (dset "unmanaged" (.bool true) o) = dget k o := by
  have ht : truthyOpt (dget "unmanaged" o) = false := by
    rcases hu with hu | hu <;> rw [hu] <;> rfl
  refine ⟨?_, dget_dset_self "unmanaged" (.bool true) o,
          fun k hk => dget_dset_ne "unmanaged" k (.bool true) o hk⟩
  rw [merge_first_match ns name pre o post hpre ho, ht]
  simp

/-- Witness for C2: one matching entry with `unmanaged` absent. -/
theorem c2_flip_in_place_witness :
    merge "openshift-foo" "bar"
        ([] ++ [("name", JValue.str "bar"), ("namespace", JValue.str "openshift-foo")] ::
          [[("kind", JValue.str "Deployment")]]) =
      ([] ++ dset "unmanaged" (.bool true)
          [("name", JValue.str "bar"), ("namespace", JValue.str "openshift-foo")] ::
          [[("kind", JValue.str "Deployment")]], true) ∧
    dget "unmanaged" (dset "unmanaged" (.bool true)
        [("name", JValue.str "bar"), ("namespace", JValue.str "openshift-foo")]) =
      some (.bool true) ∧
    ∀ k, k ≠ "unmanaged" →
      dget k (dset "unmanaged" (.bool true)
          [("name", JValue.str "bar"), ("namespace", JValue.str "openshift-foo")]) =
        dget k [("name", JValue.str "bar"), ("namespace", JValue.str "openshift-foo")] :=
  c2_flip_in_place "openshift-foo" "bar" [] [[("kind", JValue.str "Deployment")]]
    [("name", JValue.str "bar"), ("namespace", JValue.str "openshift-foo")]
    (by simp) rfl (Or.inl rfl)

/-- C3: when the first entry matching the target already has a truthy
`unmanaged` field, `merge` returns the input sequence unchanged and reports
`changed = false`. -/
theorem c3_already_unmanaged (ns name : String) (pre post : List JObject) (o : JObject)
    (hpre : ∀ p ∈ pre, matchesTarget ns name p = false)
    (ho : matchesTarget ns name o = true)
    (hu : truthyOpt (dget "unmanaged" o) = true) :
    merge ns name (pre ++ o :: post) = (pre ++ o :: post, false) := by
  rw [merge_first_match ns name pre o post hpre ho, hu]
  simp

/-- Witness for C3: one matching entry with `unmanaged` already `true`. -/
theorem c3_already_unmanaged_witness :
    merge "openshift-foo" "bar"
        ([] ++ [("name", JValue.str "bar"), ("namespace", JValue.str "openshift-foo"),
                ("unmanaged", JValue.bool true)] :: []) =
      ([] ++ [("name", JValue.str "bar"), ("namespace", JValue.str "openshift-foo"),
              ("unmanaged", JValue.bool true)] :: [], false) :=
  c3_already_unmanaged "openshift-foo" "bar" [] []
    [("name", JValue.str "bar"), ("namespace", JValue.str "openshift-foo"),
     ("unmanaged", JValue.bool true)]
    (by simp) rfl rfl

/-- Auxiliary: the Python comparison `x == s` holds exactly when `x` is the
string `s`. -/
theorem eqStr_iff (x : Option JValue) (s : String) :
    eqStr x s = true ↔ x = some (.str s) := by
  cases x with
  | none => simp [eqStr]
  | some v => cases v <;> simp [eqStr]

/-- Auxiliary: unfolding of the match predicate into the two lookups. -/
theorem matchesTarget_iff (ns name : String) (o : JObject) :
    matchesTarget ns name o = true ↔
      (dget "name" o = some (.str name) ∧ dget "namespace" o = some (.str ns)) := by
  simp [matchesTarget, Bool.and_eq_true, eqStr_iff]

/-- C6: merge is idempotent — applying it a second time with the same target
returns the sequence produced by the first application unchanged and reports
`changed = false`. -/
theorem c6_idempotent (ns name : String) (ovs : List JObject) :
    merge ns name (merge ns name ovs).1 = ((merge ns name ovs).1, false) := by
  induction ovs with
  | nil =>
    simp [merge, matchesTarget_newOverride, dget_unmanaged_newOverride, truthyOpt, truthy]
  | cons o rest ih =>
    by_cases hm : matchesTarget ns name o = true
    · by_cases ht : truthyOpt (dget "unmanaged" o) = true
      · simp [merge, hm, ht]
      · have hm' : matchesTarget ns name (dset "unmanaged" (.bool true) o) = true := by
          rw [matchesTarget_dset_unmanaged]; exact hm
        have ht' : truthyOpt (dget "unmanaged" (dset "unmanaged" (.bool true) o)) = true := by
          rw [dget_dset_self]; rfl
        simp [merge, hm, ht, hm', ht']
    · have hm' : matchesTarget ns name o = false := by simpa using hm
      simp [merge, hm', ih]

/-- C7: matching is exact equality on both `name` and `namespace`
simultaneously — an entry agreeing on only one of the two fields, or missing
one of them, is never a match, and such partial matches do not suppress
appending the fresh entry. -/
theorem c7_exact_matching (ns name : String) (o : JObject) (ovs : List JObject) :
    (matchesTarget ns name o = true ↔
      (dget "name" o = some (.str name) ∧ dget "namespace" o = some (.str ns))) ∧
    ((∀ p ∈ ovs, ¬(dget "name" p = some (.str name) ∧
        dget "namespace" p = some (.str ns))) →
      merge ns name ovs = (ovs ++ [newOverride ns name], true)) := by
  refine ⟨matchesTarget_iff ns name o, fun h => ?_⟩
  refine merge_eq_append_of_no_match ns name ovs fun p hp => ?_
  cases hmp : matchesTarget ns name p with
  | false => rfl
  | true => exact absurd ((matchesTarget_iff ns name p).mp hmp) (h p hp)

/-- Witness for C7: an entry matching on `name` only, and a sequence holding
an entry matching on `namespace` only (fresh entry still appended). -/
theorem c7_exact_matching_witness :
    (matchesTarget "openshift-foo" "bar"
        [("name", JValue.str "bar"), ("namespace", JValue.str "other")] = true ↔
      (dget "name" [("name", JValue.str "bar"), ("namespace", JValue.str "other")] =
          some (.str "bar") ∧
        dget "namespace" [("name", JValue.str "bar"), ("namespace", JValue.str "other")] =
          some (.str "openshift-foo"))) ∧
    merge "openshift-foo" "bar" [[("namespace", JValue.str "openshift-foo")]] =
      ([[("namespace", JValue.str "openshift-foo")]] ++
        [newOverride "openshift-foo" "bar"], true) :=
  ⟨(c7_exact_matching "openshift-foo" "bar"
      [("name", JValue.str "bar"), ("namespace", JValue.str "other")]
      [[("namespace", JValue.str "openshift-foo")]]).1,
   (c7_exact_matching "openshift-foo" "bar"
      [("name", JValue.str "bar"), ("namespace", JValue.str "other")]
      [[("namespace", JValue.str "openshift-foo")]]).2 (by simp [dget])⟩

/-- C8: even when the suffix after the first matching entry contains further
matching duplicates, only the first matching entry is examined or modified;
the prefix and the whole suffix, duplicates included, are returned
verbatim. -/
theorem c8_first_match_only (ns name : String) (pre post : List JObject) (o : JObject)
    (hpre : ∀ p ∈ pre, matchesTarget ns name p = false)
    (ho : matchesTarget ns name o = true)
    (_hdup : ∃ d ∈ post, matchesTarget ns name d = true) :
    merge ns name (pre ++ o :: post) =
      (pre ++ (if truthyOpt (dget "unmanaged" o) then o
               else dset "unmanaged" (.bool true) o) :: post,
       !truthyOpt (dget "unmanaged" o)) :=
  merge_first_match ns name pre o post hpre ho

/-- Witness for C8: a sequence of two identical matching entries; the second
duplicate is returned untouched. -/
theorem c8_first_match_only_witness :
    merge "openshift-foo" "bar"
        ([] ++ [("name", JValue.str "bar"), ("namespace", JValue.str "openshift-foo")] ::
          [[("name", JValue.str "bar"), ("namespace", JValue.str "openshift-foo")]]) =
      ([] ++ (if truthyOpt (dget "unmanaged"
                  [("name", JValue.str "bar"), ("namespace", JValue.str "openshift-foo")])
              then [("name", JValue.str "bar"), ("namespace", JValue.str "openshift-foo")]
              else dset "unmanaged" (.bool true)
                  [("name", JValue.str "bar"), ("namespace", JValue.str "openshift-foo")]) ::
          [[("name", JValue.str "bar"), ("namespace", JValue.str "openshift-foo")]],
       !truthyOpt (dget "unmanaged"
          [("name", JValue.str "bar"), ("namespace", JValue.str "openshift-foo")])) :=
  c8_first_match_only "openshift-foo" "bar" []
    [[("name", JValue.str "bar"), ("namespace", JValue.str "openshift-foo")]]
    [("name", JValue.str "bar"), ("namespace", JValue.str "openshift-foo")]
    (by simp) rfl
    ⟨[("name", JValue.str "bar"), ("namespace", JValue.str "openshift-foo")],
     by simp, rfl⟩

/-- C5, counterexample: with two duplicate matching entries in the input the
result contains two matching entries, not exactly one — the code flips only
the first and leaves the duplicate, so the claimed invariant "exactly one
matching entry exists afterwards" fails. -/
theorem c5_counterexample :
    ((merge "openshift-foo" "bar"
        [[("name", JValue.str "bar"), ("namespace", JValue.str "openshift-foo")],
         [("name", JValue.str "bar"), ("namespace", JValue.str "openshift-foo")]]).1.countP
      fun o => matchesTarget "openshift-foo" "bar" o) = 2 := by decide

/-- C5, amended: for every input override sequence containing at most one
entry matching the target, after `merge` the resulting sequence contains
exactly one matching entry, and every matching entry of the result has a
truthy `unmanaged` field. -/
theorem c5_amended_unique_match (ns name : String) (ovs : List JObject)
    (h : ovs.countP (fun o => matchesTarget ns name o) ≤ 1) :
    ((merge ns name ovs).1.countP fun o => matchesTarget ns name o) = 1 ∧
    ∀ o ∈ (merge ns name ovs).1, matchesTarget ns name o = true →
      truthyOpt (dget "unmanaged" o) = true := by
  induction ovs with
  | nil =>
    constructor
    · simp [merge, List.countP_cons, matchesTarget_newOverride]
    · intro o ho hmo
      have : o = newOverride ns name := by simpa [merge] using ho
      subst this
      rfl
  | cons o rest ih =>
    by_cases hm : matchesTarget ns name o = true
    · have hnone : ∀ x ∈ rest, matchesTarget ns name x = false := by
        simp [List.countP_cons, hm] at h
        exact h
      have hrest : (rest.countP fun x => matchesTarget ns name x) = 0 :=
        List.countP_eq_zero.mpr fun x hx => by simp [hnone x hx]
      by_cases ht : truthyOpt (dget "unmanaged" o) = true
      · constructor
        · simp [merge, hm, ht, List.countP_cons, hrest]
        · intro x hx hmx
          simp [merge, hm, ht] at hx
          rcases hx with rfl | hx
          · exact ht
          · exact absurd hmx (by simp [hnone x hx])
      · constructor
        · simp [merge, hm, ht, List.countP_cons, hrest, matchesTarget_dset_unmanaged]
        · intro x hx hmx
          simp [merge, hm, ht] at hx
          rcases hx with rfl | hx
          · rw [dget_dset_self]
            rfl
          · exact absurd hmx (by simp [hnone x hx])
    · have hm' : matchesTarget ns name o = false := by simpa using hm
      have h' : (rest.countP fun x => matchesTarget ns name x) ≤ 1 := by
        simpa [List.countP_cons, hm'] using h
      obtain ⟨ih1, ih2⟩ := ih h'
      constructor
      · simp [merge, hm', List.countP_cons, ih1]
      · intro x hx hmx
        simp [merge, hm'] at hx
        rcases hx with rfl | hx
        · exact absurd hmx (by simp [hm'])
        · exact ih2 x hx hmx

/-- Witness for the amended C5 at the empty sequence. -/
theorem c5_amended_unique_match_witness :
    ((merge "openshift-foo" "bar" []).1.countP
      fun o => matchesTarget "openshift-foo" "bar" o) = 1 ∧
    ∀ o ∈ (merge "openshift-foo" "bar" []).1,
      matchesTarget "openshift-foo" "bar" o = true →
      truthyOpt (dget "unmanaged" o) = true :=
  c5_amended_unique_match "openshift-foo" "bar" [] (by decide)

/-! ## Claim theorems: the whole script -/

/-- Every successful execution decomposes into the two `setdefault` steps,
the merge over the override array, and the final document assembled by
writing the updated values back into place; the apply is performed exactly
when the merge reported a modification. -/
theorem run_inversion (ns name : String) (cv : JValue) (r : RunResult)
    (h : run ns name cv = some r) :
    ∃ cvFields specFields cvFields' ovs specFields' ovs' c,
      cv = .obj cvFields ∧
      dsetdefault "spec" (.obj []) cvFields = (.obj specFields, cvFields') ∧
      dsetdefault "overrides" (.arr []) specFields = (.arr ovs, specFields') ∧
      mergeJ ns name ovs = some (ovs', c) ∧
      r = { document := .obj (dset "spec"
              (.obj (dset "overrides" (.arr ovs') specFields')) cvFields'),
            changed := c,
            applied := if c then
                some (.obj (dset "spec"
                  (.obj (dset "overrides" (.arr ovs') specFields')) cvFields'))
              else none } := by
  cases cv with
  | null => simp [run] at h
  | bool b => simp [run] at h
  | num n => simp [run] at h
  | str s => simp [run] at h
  | arr xs => simp [run] at h
  | obj cvFields =>
    simp only [run] at h
    rcases e1 : dsetdefault "spec" (.obj []) cvFields with ⟨sv, cvFields'⟩
    rw [e1] at h
    cases sv with
    | null => simp at h
    | bool b => simp at h
    | num n => simp at h
    | str s => simp at h
    | arr xs => simp at h
    | obj specFields =>
      dsimp only at h
      rcases e2 : dsetdefault "overrides" (.arr []) specFields with ⟨ov, specFields'⟩
      rw [e2] at h
      cases ov with
      | null => simp at h
      | bool b => simp at h
      | num n => simp at h
      | str s => simp at h
      | obj fs => simp at h
      | arr ovs =>
        dsimp only at h
        rcases e3 : mergeJ ns name ovs with _ | ⟨ovs', c⟩
        · rw [e3] at h
          simp at h
        · rw [e3] at h
          simp only [Option.some.injEq] at h
          exact ⟨cvFields, specFields, cvFields', ovs, specFields', ovs', c,
                 rfl, e1, e2, e3, h.symm⟩

/-- C4: the external apply is performed if and only if the merge reported a
change — no write when `changed = false`, and exactly one apply of the full
updated document when `changed = true`. -/
theorem c4_apply_iff_changed (ns name : String) (cv : JValue) (r : RunResult)
    (h : run ns name cv = some r) :
    r.applied = if r.changed then some r.document else none := by
  obtain ⟨cvFields, specFields, cvFields', ovs, specFields', ovs', c,
          _, _, _, _, hr⟩ := run_inversion ns name cv r h
  subst hr
  rfl

/-- The document produced from an initially empty ClusterVersion object. -/
def sampleDoc : JValue :=
  .obj [("spec", .obj [("overrides", .arr [.obj (newOverride "openshift-foo" "bar")])])]

/-- Witness for C4 on the empty document: the merge appends, so the full
updated document is applied. -/
theorem c4_apply_iff_changed_witness :
    (RunResult.applied { document := sampleDoc, changed := true, applied := some sampleDoc }) =
      if (RunResult.changed { document := sampleDoc, changed := true,
                              applied := some sampleDoc }) then
        some (RunResult.document { document := sampleDoc, changed := true,
                                   applied := some sampleDoc })
      else none :=
  c4_apply_iff_changed "openshift-foo" "bar" (.obj [])
    { document := sampleDoc, changed := true, applied := some sampleDoc } rfl

/-- C9: when the top-level `spec` field or the `spec.overrides` field is
absent, the operation does not fail: the missing field is treated as an
empty overrides list, the merge appends the fresh entry, and the run
completes normally with a change. -/
theorem c9_missing_fields_default (ns name : String) (cvFields : JObject)
    (h : dget "spec" cvFields = none ∨
         ∃ specFields, dget "spec" cvFields = some (.obj specFields) ∧
           dget "overrides" specFields = none) :
    ∃ r, run ns name (.obj cvFields) = some r ∧ r.changed = true ∧
      r.applied = some r.document ∧
      ∃ docFields specNew, r.document = .obj docFields ∧
        dget "spec" docFields = some (.obj specNew) ∧
        dget "overrides" specNew = some (.arr [.obj (newOverride ns name)]) := by
  rcases h with hspec | ⟨specFields, hspec, hov⟩
  · have e1 : dsetdefault "spec" (.obj []) cvFields =
        (.obj [], cvFields ++ [("spec", .obj [])]) := by
      simp [dsetdefault, hspec]
    have hrun : run ns name (.obj cvFields) = some
        { document := .obj (dset "spec"
            (.obj [("overrides", .arr [.obj (newOverride ns name)])])
            (cvFields ++ [("spec", .obj [])])),
          changed := true,
          applied := some (.obj (dset "spec"
            (.obj [("overrides", .arr [.obj (newOverride ns name)])])
            (cvFields ++ [("spec", .obj [])]))) } := by
      simp only [run]
      rw [e1]
      rfl
    refine ⟨_, hrun, rfl, rfl, _, [("overrides", .arr [.obj (newOverride ns name)])],
            rfl, ?_, rfl⟩
    exact dget_dset_self "spec" _ (cvFields ++ [("spec", .obj [])])
  · have e1 : dsetdefault "spec" (.obj []) cvFields = (.obj specFields, cvFields) := by
      simp [dsetdefault, hspec]
    have e2 : dsetdefault "overrides" (.arr []) specFields =
        (.arr [], specFields ++ [("overrides", .arr [])]) := by
      simp [dsetdefault, hov]
    have hrun : run ns name (.obj cvFields) = some
        { document := .obj (dset "spec"
            (.obj (dset "overrides" (.arr [.obj (newOverride ns name)])
              (specFields ++ [("overrides", .arr [])]))) cvFields),
          changed := true,
          applied := some (.obj (dset "spec"
            (.obj (dset "overrides" (.arr [.obj (newOverride ns name)])
              (specFields ++ [("overrides", .arr [])]))) cvFields)) } := by
      simp only [run]
      rw [e1]
      dsimp only
      rw [e2]
      rfl
    refine ⟨_, hrun, rfl, rfl, _,
            dset "overrides" (.arr [.obj (newOverride ns name)])
              (specFields ++ [("overrides", .arr [])]),
            rfl, ?_, ?_⟩
    · exact dget_dset_self "spec" _ cvFields
    · exact dget_dset_self "overrides" _ (specFields ++ [("overrides", .arr [])])

/-- Witness for C9 on a document lacking `spec` entirely. -/
theorem c9_missing_fields_default_witness :
    ∃ r, run "openshift-foo" "bar" (.obj [("kind", JValue.str "ClusterVersion")]) =
        some r ∧ r.changed = true ∧
      r.applied = some r.document ∧
      ∃ docFields specNew, r.document = .obj docFields ∧
        dget "spec" docFields = some (.obj specNew) ∧
        dget "overrides" specNew =
          some (.arr [.obj (newOverride "openshift-foo" "bar")]) :=
  c9_missing_fields_default "openshift-foo" "bar"
    [("kind", JValue.str "ClusterVersion")] (Or.inl rfl)

/-- C10: every part of the document other than `spec.overrides` is preserved:
top-level fields other than `spec` keep their values and the top-level key
order is unchanged (except that a `spec` key is appended when it was absent),
and fields of `spec` other than `overrides` keep their values (an absent
`spec` contributes no such fields). -/
theorem c10_frame (ns name : String) (cvFields : JObject) (r : RunResult)
    (h : run ns name (.obj cvFields) = some r) :
    ∃ docFields, r.document = .obj docFields ∧
      (∀ k, k ≠ "spec" → dget k docFields = dget k cvFields) ∧
      ∃ specNew, dget "spec" docFields = some (.obj specNew) ∧
        ((dget "spec" cvFields = none ∧
            docFields.map Prod.fst = cvFields.map Prod.fst ++ ["spec"] ∧
            ∀ k, k ≠ "overrides" → dget k specNew = none) ∨
         (∃ specOld, dget "spec" cvFields = some (.obj specOld) ∧
            docFields.map Prod.fst = cvFields.map Prod.fst ∧
            ∀ k, k ≠ "overrides" → dget k specNew = dget k specOld)) := by
  obtain ⟨cvFields0, specFields, cvFields', ovs, specFields', ovs', c,
          hcv, e1, e2, e3, hr⟩ := run_inversion ns name (.obj cvFields) r h
  injection hcv with hcv0
  subst hcv0
  subst hr
  cases hspec : dget "spec" cvFields with
  | none =>
    simp [dsetdefault, hspec] at e1
    obtain ⟨h1, h2⟩ := e1
    subst h1
    subst h2
    simp [dsetdefault, dget] at e2
    obtain ⟨h3, h4⟩ := e2
    subst h3
    subst h4
    simp [mergeJ] at e3
    obtain ⟨h5, h6⟩ := e3
    subst h5
    subst h6
    refine ⟨_, rfl, ?_,
            dset "overrides" (.arr [.obj (newOverride ns name)]) [("overrides", .arr [])],
            dget_dset_self _ _ _, Or.inl ⟨rfl, ?_, ?_⟩⟩
    · intro k hk
      rw [dget_dset_ne _ _ _ _ hk, dget_append_singleton_ne _ _ _ _ hk]
    · have hg : dget "spec" (cvFields ++ [("spec", JValue.obj [])]) =
          some (.obj []) := by
        rw [dget_append_of_none _ _ _ hspec]
        rfl
      rw [keys_dset_of_some _ _ _ _ hg]
      simp
    · intro k hk
      rw [dget_dset_ne _ _ _ _ hk]
      simp [dget, Ne.symm hk]
  | some sv =>
    simp [dsetdefault, hspec] at e1
    obtain ⟨h1, h2⟩ := e1
    subst h1
    subst h2
    cases hov : dget "overrides" specFields with
    | none =>
      simp [dsetdefault, hov] at e2
      obtain ⟨h3, h4⟩ := e2
      subst h3
      subst h4
      simp [mergeJ] at e3
      obtain ⟨h5, h6⟩ := e3
      subst h5
      subst h6
      refine ⟨_, rfl, ?_, _, dget_dset_self _ _ _,
              Or.inr ⟨specFields, rfl, ?_, ?_⟩⟩
      · intro k hk
        exact dget_dset_ne _ _ _ _ hk
      · exact keys_dset_of_some _ _ _ _ hspec
      · intro k hk
        rw [dget_dset_ne _ _ _ _ hk, dget_append_singleton_ne _ _ _ _ hk]
    | some ov =>
      simp [dsetdefault, hov] at e2
      obtain ⟨h3, h4⟩ := e2
      subst h3
      subst h4
      refine ⟨_, rfl, ?_, _, dget_dset_self _ _ _,
              Or.inr ⟨specFields, rfl, ?_, ?_⟩⟩
      · intro k hk
        exact dget_dset_ne _ _ _ _ hk
      · exact keys_dset_of_some _ _ _ _ hspec
      · intro k hk
        exact dget_dset_ne _ _ _ _ hk

/-- Witness for C10 on a document whose `spec` carries a `channel` field
next to an empty `overrides` list: `channel` and the key order survive. -/
theorem c10_frame_witness :
    ∃ docFields,
      (RunResult.document
        { document := .obj [("spec", .obj [("channel", JValue.str "stable"),
            ("overrides", .arr [.obj (newOverride "openshift-foo" "bar")])])],
          changed := true,
          applied := some (.obj [("spec", .obj [("channel", JValue.str "stable"),
            ("overrides", .arr [.obj (newOverride "openshift-foo" "bar")])])]) }) =
        .obj docFields ∧
      (∀ k, k ≠ "spec" → dget k docFields =
        dget k [("spec", .obj [("channel", JValue.str "stable"),
                 ("overrides", JValue.arr [])])]) ∧
      ∃ specNew, dget "spec" docFields = some (.obj specNew) ∧
        ((dget "spec" [("spec", .obj [("channel", JValue.str "stable"),
              ("overrides", JValue.arr [])])] = none ∧
            docFields.map Prod.fst =
              ([("spec", JValue.obj [("channel", JValue.str "stable"),
                 ("overrides", JValue.arr [])])].map Prod.fst) ++ ["spec"] ∧
            ∀ k, k ≠ "overrides" → dget k specNew = none) ∨
         (∃ specOld,
            dget "spec" [("spec", .obj [("channel", JValue.str "stable"),
              ("overrides", JValue.arr [])])] = some (.obj specOld) ∧
            docFields.map Prod.fst =
              [("spec", JValue.obj [("channel", JValue.str "stable"),
                ("overrides", JValue.arr [])])].map Prod.fst ∧
            ∀ k, k ≠ "overrides" → dget k specNew = dget k specOld)) :=
  c10_frame "openshift-foo" "bar"
    [("spec", .obj [("channel", JValue.str "stable"), ("overrides", JValue.arr [])])]
    { document := .obj [("spec", .obj [("channel", JValue.str "stable"),
        ("overrides", .arr [.obj (newOverride "openshift-foo" "bar")])])],
      changed := true,
      applied := some (.obj [("spec", .obj [("channel", JValue.str "stable"),
        ("overrides", .arr [.obj (newOverride "openshift-foo" "bar")])])]) }
    rfl

end CvoUnmanage
